import Mathlib

/-!
Verification development for the AceNgage telephony bridge service
(`telephony/main.py`, `telephony/transcript_processor.py`, `telephony/config.py`).

The Python source is shallowly embedded: pure helper functions become Lean
functions on `String` / `List Int`; the per-message processing of the two
websocket loops becomes explicit state-passing step functions; the polling
end-of-call monitor becomes a fuel-indexed loop over an observation stream.
External collaborators (base64/A-law codecs, resampling, the Gemini session,
wall-clock timestamps) enter as parameters, exactly at the boundaries the
source calls them.
-/

/-! ## Character and string utilities

Python string primitives (`lower`, `strip`, `split`, `in`, `re.search` for the
few fixed regexes the source uses) are modelled over `List Char`.  Only ASCII
behaviour is relevant: every pattern and phrase in the source is ASCII. -/

/-- The ASCII apostrophe character (several source phrases contain it). -/
def apoC : Char := Char.ofNat 39

/-- Python `\w`: ASCII letters, digits and underscore (the source only ever
matches ASCII text against these patterns). -/
def isWordChar (c : Char) : Bool := c.isAlphanum || c = '_'

/-- Python `\s` (ASCII part): space, tab, newline, carriage return,
vertical tab, form feed. -/
def isSpaceChar (c : Char) : Bool :=
  c = ' ' || c = Char.ofNat 9 || c = Char.ofNat 10 || c = Char.ofNat 13 ||
  c = Char.ofNat 11 || c = Char.ofNat 12

/-- List-of-chars prefix test. -/
def isPrefixL : List Char → List Char → Bool
  | [], _ => true
  | _ :: _, [] => false
  | p :: ps, c :: cs => p = c && isPrefixL ps cs

/-- Python `pat in hay` substring test (empty pattern is contained). -/
def containsSub (hay pat : List Char) : Bool :=
  match hay with
  | [] => pat.isEmpty
  | _ :: rest => isPrefixL pat hay || containsSub rest pat

/-- Python `pat in hay` on strings. -/
def strContains (hay pat : String) : Bool := containsSub hay.data pat.data

/-- Word-boundary-delimited occurrence of `pat` inside `hay`, with `prev` the
character just before the scan position.  This models `re.search(r'\b…\b', hay)`
for patterns that begin and end with a word character (all the source's
disinterest alternatives do): the `\b` then demands that the neighbouring
character, when present, is a non-word character. -/
def boundarySubAux (pat : List Char) : List Char → Option Char → Bool
  | [], _ => false
  | c :: rest, prev =>
    (isPrefixL pat (c :: rest)
      && (match prev with | none => true | some q => !(isWordChar q))
      && (match (c :: rest).drop pat.length with
          | [] => true
          | a :: _ => !(isWordChar a)))
    || boundarySubAux pat rest (some c)

/-- `re.search(r'\b pat \b', hay)` as a Bool, for word-delimited patterns. -/
def boundaryContains (hay pat : String) : Bool :=
  boundarySubAux pat.data hay.data none

/-- Python `str.lower()` (ASCII). -/
def pyLower (s : String) : String := ⟨s.data.map Char.toLower⟩

/-- Python `str.strip()` (ASCII whitespace). -/
def pyStrip (s : String) : String :=
  ⟨((s.data.dropWhile isSpaceChar).reverse.dropWhile isSpaceChar).reverse⟩

/-- Python `str.split()` with no argument: split on runs of whitespace,
dropping empties. -/
def pySplitWs (s : String) : List String :=
  ((s.data.splitOnP (fun c => isSpaceChar c)).filter (fun w => !w.isEmpty)).map
    (fun w => (⟨w⟩ : String))

/-- Python `s.split(",")`: split on every comma, keeping empties. -/
def pySplitComma (s : String) : List String :=
  (s.data.splitOnP (fun c => c = ',')).map (fun w => (⟨w⟩ : String))

/-- Two-digit zero-padded decimal, as Python `f"{n:02d}"` for `n ≥ 0`. -/
def pad2 (n : Nat) : String := if n < 10 then "0" ++ toString n else toString n

/-- Four-digit zero-padded decimal, as `strftime("%Y")` for the years used. -/
def pad4 (n : Nat) : String :=
  if n < 10 then "000" ++ toString n
  else if n < 100 then "00" ++ toString n
  else if n < 1000 then "0" ++ toString n
  else toString n

/-- Digits of a numeral prefix to a natural number. -/
def digitsToNat (ds : List Char) : Nat :=
  ds.foldl (fun acc c => acc * 10 + (c.toNat - 48)) 0

deriving instance DecidableEq for Except

/-! ## `transcript_processor.py` — data model -/

/-- `TranscriptEntry` dataclass: role ("agent" or "user"), text, timestamp. -/
structure TranscriptEntry where
  role : String
  text : String
  timestamp : String
deriving Repr, DecidableEq

/-- `ExtractedOutcome` dataclass.  `confidence` is recorded in TENTHS of the
source's float value (the source only ever adds the literals 0.5, 0.3, 0.2
and 0.8, all exact decimals, and compares with `>` and `>= 0.7`; both the
additions and the comparison verdicts coincide with the float computation, so
scaling by ten is an exact change of representation). -/
structure ExtractedOutcome where
  callback_date : Option String := none
  callback_time : Option String := none
  outcome : String := "unknown"
  notes : Option String := none
  confidence : Nat := 0
deriving Repr, DecidableEq

/-- A Python `datetime(year, month, day)` plus a seconds-of-day component
(the embedded code only ever constructs midnight datetimes; the reference
datetime may carry a time of day, which participates in `<`). -/
structure PyDateTime where
  year : Nat
  month : Nat
  day : Nat
  secs : Nat := 0
deriving Repr, DecidableEq

/-- Python datetime `<` (lexicographic). -/
def pyDtLt (a b : PyDateTime) : Bool :=
  a.year < b.year ||
  (a.year = b.year && (a.month < b.month ||
    (a.month = b.month && (a.day < b.day ||
      (a.day = b.day && a.secs < b.secs)))))

/-- Gregorian leap year. -/
def isLeapYear (y : Nat) : Bool := y % 4 = 0 && (y % 100 ≠ 0 || y % 400 = 0)

/-- Days in a month. -/
def daysInMonth (y m : Nat) : Nat :=
  if m = 2 then (if isLeapYear y then 29 else 28)
  else if m = 4 || m = 6 || m = 9 || m = 11 then 30
  else 31

/-- `datetime(year, month, day)`: raises `ValueError` on an invalid date,
modelled as `Except`. -/
def mkPyDateTime (y m d : Nat) : Except String PyDateTime :=
  if 1 ≤ m ∧ m ≤ 12 ∧ 1 ≤ d ∧ d ≤ daysInMonth y m then
    .ok ⟨y, m, d, 0⟩
  else .error "ValueError: day is out of range for month"

/-- `datetime + timedelta(days=1)` (time of day preserved). -/
def pyNextDay (t : PyDateTime) : PyDateTime :=
  if t.day < daysInMonth t.year t.month then { t with day := t.day + 1 }
  else if t.month < 12 then { t with month := t.month + 1, day := 1 }
  else { t with year := t.year + 1, month := 1, day := 1 }

/-- `datetime + timedelta(days=k)`. -/
def pyAddDays (t : PyDateTime) : Nat → PyDateTime
  | 0 => t
  | k + 1 => pyNextDay (pyAddDays t k)

/-- `strftime("%Y-%m-%d")`. -/
def fmtIsoDate (t : PyDateTime) : String :=
  pad4 t.year ++ "-" ++ pad2 t.month ++ "-" ++ pad2 t.day

/-! ## `_parse_time` -/

/-- The meridiem alternation `(am|pm|a\s*m|p\s*m)?` of `_parse_time`'s regex,
tried at the given suffix in the regex's alternative order; returns the
canonical meridiem (after the source's `replace(" ", "")`). -/
def matchMeridiem (cs : List Char) : Option String :=
  if isPrefixL "am".data cs then some "am"
  else if isPrefixL "pm".data cs then some "pm"
  else match cs with
       | 'a' :: rest => if (rest.dropWhile isSpaceChar).head? = some 'm' then some "am" else none
       | 'p' :: rest => if (rest.dropWhile isSpaceChar).head? = some 'm' then some "pm" else none
       | _ => none

/-- Body of the regex match of `_parse_time` once positioned on the first
digit: `(\d{1,2})(?::(\d{2}))?\s*(am|pm|a\s*m|p\s*m)?`.  The leading digit run
is taken greedily up to two digits; the minute group requires a colon and two
digits; everything after the hour group is optional, so a match always
succeeds here. -/
def parseTimeAt (cs : List Char) : Nat × Nat × Option String :=
  let hds := (cs.takeWhile Char.isDigit).take 2
  let r1 := cs.drop hds.length
  let (minute, r2) :=
    match r1 with
    | ':' :: a :: b :: rest =>
      if a.isDigit && b.isDigit then (digitsToNat [a, b], rest) else (0, r1)
    | _ => (0, r1)
  let r3 := r2.dropWhile isSpaceChar
  (digitsToNat hds, minute, matchMeridiem r3)

/-- `re.search` scan of `_parse_time`'s pattern: the leftmost match begins at
the first digit of the string (the hour group is the only mandatory part). -/
def findTimeMatch : List Char → Option (Nat × Nat × Option String)
  | [] => none
  | c :: rest => if c.isDigit then some (parseTimeAt (c :: rest)) else findTimeMatch rest

/-- `_parse_time`: lower, strip, drop `.` and apostrophes, regex-search, then
the meridiem/business-hours adjustment, formatted `HH:MM`. -/
def parse_time (timeStr : String) : Option String :=
  let cs := (pyStrip (pyLower timeStr)).data.filter (fun c => !(c = '.' || c = apoC))
  match findTimeMatch cs with
  | none => none
  | some (h, minute, mer) =>
    let hour :=
      match mer with
      | none => if h < 8 then h + 12 else h
      | some m => if m = "pm" ∧ h ≠ 12 then h + 12
                  else if m = "am" ∧ h = 12 then 0
                  else h
    some (pad2 hour ++ ":" ++ pad2 minute)

/-! ## `_parse_date` -/

/-- The `MONTHS` dict of the source, in insertion order (regex alternation
order of `month_pattern`). -/
def monthKeys : List (String × Nat) :=
  [("january", 1), ("jan", 1), ("february", 2), ("feb", 2), ("march", 3),
   ("mar", 3), ("april", 4), ("apr", 4), ("may", 5), ("june", 6), ("jun", 6),
   ("july", 7), ("jul", 7), ("august", 8), ("aug", 8), ("september", 9),
   ("sep", 9), ("sept", 9), ("october", 10), ("oct", 10), ("november", 11),
   ("nov", 11), ("december", 12), ("dec", 12)]

/-- The `RELATIVE_DAYS` dict, in insertion order ("day after tomorrow" is
shadowed by "day after", as in the source's iteration). -/
def relativeDays : List (String × Nat) :=
  [("today", 0), ("tomorrow", 1), ("day after", 2), ("day after tomorrow", 2)]

/-- At one scan position, try the month alternatives in dict order followed by
`\s+(\d{1,2})` and the optional ordinal suffix: `({month})\s+(\d{1,2})(?:st|nd|rd|th)?`. -/
def matchMonthDayAt (cs : List Char) : Option (Nat × Nat) :=
  monthKeys.foldl
    (fun acc (mk : String × Nat) =>
      match acc with
      | some r => some r
      | none =>
        if isPrefixL mk.1.data cs then
          let r := cs.drop mk.1.data.length
          let r2 := r.dropWhile isSpaceChar
          if r2.length < r.length then
            let ds := (r2.takeWhile Char.isDigit).take 2
            if ds.isEmpty then none else some (mk.2, digitsToNat ds)
          else none
        else none)
    none

/-- `re.search` scan for the "Month Day" pattern: leftmost position wins,
alternatives in dict order at each position. -/
def findMonthDay : List Char → Option (Nat × Nat)
  | [] => none
  | c :: rest =>
    match matchMonthDayAt (c :: rest) with
    | some r => some r
    | none => findMonthDay rest

/-- At one scan position, `(\d{1,2})(?:st|nd|rd|th)?\s+({month})`. -/
def matchDayMonthAt (cs : List Char) : Option (Nat × Nat) :=
  let ds := (cs.takeWhile Char.isDigit).take 2
  if ds.isEmpty then none
  else
    let r := cs.drop ds.length
    let r1 :=
      if isPrefixL "st".data r || isPrefixL "nd".data r ||
         isPrefixL "rd".data r || isPrefixL "th".data r then r.drop 2 else r
    let r2 := r1.dropWhile isSpaceChar
    if r2.length < r1.length then
      monthKeys.foldl
        (fun acc (mk : String × Nat) =>
          match acc with
          | some x => some x
          | none => if isPrefixL mk.1.data r2 then some (digitsToNat ds, mk.2) else none)
        none
    else none

/-- `re.search` scan for the "Day Month" pattern. -/
def findDayMonth : List Char → Option (Nat × Nat)
  | [] => none
  | c :: rest =>
    if c.isDigit then
      match matchDayMonthAt (c :: rest) with
      | some r => some r
      | none => findDayMonth rest
    else findDayMonth rest

/-- Shared tail of both absolute-date branches of `_parse_date`: construct
`datetime(year, month, day)` from the reference year, rolling forward one year
when the result precedes the reference (`datetime` may raise, as `Except`). -/
def resolveAbsoluteDate (refDt : PyDateTime) (month day : Nat) :
    Except String String := do
  let target ← mkPyDateTime refDt.year month day
  if pyDtLt target refDt then
    let target2 ← mkPyDateTime (refDt.year + 1) month day
    return fmtIsoDate target2
  else
    return fmtIsoDate target

/-- `_parse_date`: relative-day scan in dict order, then "Month Day", then
"Day Month"; `none` when nothing matches. -/
def parse_date (dateStr : String) (refDt : PyDateTime) :
    Except String (Option String) := do
  let d := pyStrip (pyLower dateStr)
  match relativeDays.find? (fun rn => strContains d rn.1) with
  | some rn => return some (fmtIsoDate (pyAddDays refDt rn.2))
  | none =>
    match findMonthDay d.data with
    | some (m, dayN) => do
      let s ← resolveAbsoluteDate refDt m dayN
      return some s
    | none =>
      match findDayMonth d.data with
      | some (dayN, m) => do
        let s ← resolveAbsoluteDate refDt m dayN
        return some s
      | none => return none

/-- `_extract_date_time_from_text`: both parsers on the lowered text. -/
def extract_date_time_from_text (text : String) (refDt : PyDateTime) :
    Except String (Option String × Option String) := do
  let tl := pyLower text
  let d ← parse_date tl refDt
  return (d, parse_time tl)

/-! ## Disinterest, confirmation and scheduling patterns -/

/-- The alternatives of `_check_not_interested_patterns`'s three regexes,
flattened (each is matched with `\b` boundaries; `don\'?t` expands to both
spellings). -/
def notInterestedAlts : List String :=
  ["not interested",
   "don" ++ String.singleton apoC ++ "t want", "dont want",
   "no thanks", "no thank you",
   "don" ++ String.singleton apoC ++ "t call", "dont call",
   "stop calling", "remove me",
   "busy",
   "can" ++ String.singleton apoC ++ "t talk", "cant talk",
   "bad time"]

/-- `_check_not_interested_patterns`: some user entry's lowered text matches a
disinterest alternative at word boundaries. -/
def check_not_interested_patterns (ts : List TranscriptEntry) : Bool :=
  ts.any (fun e =>
    e.role == "user" &&
    notInterestedAlts.any (fun p => boundaryContains (pyLower e.text) p))

/-- The `confirmation_words` set of `_check_confirmation_patterns` (the
multi-word members can never equal a single split word, exactly as in the
source, where they are dead entries of the set intersection). -/
def confirmationWords : List String :=
  ["yes", "yeah", "yep", "okay", "ok", "sure", "perfect",
   "great", "fine", "sounds good", "that works", "confirmed"]

/-- `_check_confirmation_patterns`: some user entry, lowered, stripped of
non-word non-space characters, split on whitespace, shares a word with the
confirmation set. -/
def check_confirmation_patterns (ts : List TranscriptEntry) : Bool :=
  ts.any (fun e =>
    e.role == "user" &&
    (let clean : String :=
      ⟨(pyStrip (pyLower e.text)).data.filter (fun c => isWordChar c || isSpaceChar c)⟩
     (pySplitWs clean).any (fun w => confirmationWords.contains w)))

/-- The `schedule_keywords` list of `extract_outcome_from_transcripts`. -/
def scheduleKeywords : List String :=
  ["you are all set", "you" ++ String.singleton apoC ++ "re all set",
   "scheduled", "get a call", "will call", "callback", "interview",
   "appointment", "confirmed", "booked"]

/-! ## `extract_outcome_from_transcripts` -/

/-- State of the newest-first agent scan: best date, best time, best
confidence (in tenths). -/
structure BestState where
  bestDate : Option String := none
  bestTime : Option String := none
  bestConf : Nat := 0
deriving Repr, DecidableEq

/-- One iteration of the agent scan (source lines 245-271): on any extracted
date or time, accumulate confidence (base 0.5, +0.3 for a scheduling keyword,
+0.2 for a user confirmation word) and keep the fields when the confidence
beats the running best. -/
def agentScanStep (ts : List TranscriptEntry) (refDt : PyDateTime)
    (acc : BestState) (e : TranscriptEntry) : Except String BestState := do
  let textLower := pyLower e.text
  let hasKw := scheduleKeywords.any (fun kw => strContains textLower kw)
  let (dateFound, timeFound) ← extract_date_time_from_text e.text refDt
  if dateFound.isSome || timeFound.isSome then
    let conf : Nat := 5 + (if hasKw then 3 else 0)
      + (if check_confirmation_patterns ts then 2 else 0)
    if acc.bestConf < conf then
      return { bestDate := if dateFound.isSome then dateFound else acc.bestDate,
               bestTime := if timeFound.isSome then timeFound else acc.bestTime,
               bestConf := conf }
    else
      return acc
  else
    return acc

/-- One iteration of the user fallback scan (source lines 274-280): adopt a
user-stated date/time only where the agent scan found none. -/
def userScanStep (refDt : PyDateTime) (acc : BestState) (e : TranscriptEntry) :
    Except String BestState := do
  let (dateFound, timeFound) ← extract_date_time_from_text e.text refDt
  let acc1 := if dateFound.isSome ∧ acc.bestDate.isNone then
                { acc with bestDate := dateFound } else acc
  return if timeFound.isSome ∧ acc1.bestTime.isNone then
           { acc1 with bestTime := timeFound } else acc1

/-- The outcome classification (source lines 282-288); the threshold 0.7 is
7 tenths. -/
def classifyOutcome (b : BestState) : String :=
  if b.bestDate.isSome ∧ b.bestTime.isSome ∧ 7 ≤ b.bestConf then
    "scheduled"
  else if b.bestDate.isSome ∨ b.bestTime.isSome then "partially_scheduled"
  else "unknown"

/-- The notes assembly (source lines 291-296). -/
def buildNotes (b : BestState) : Option String :=
  let parts :=
    (match b.bestDate with | some d => ["Date: " ++ d] | none => []) ++
    (match b.bestTime with | some t => ["Time: " ++ t] | none => [])
  if parts.isEmpty then none else some (String.intercalate ", " parts)

/-- Final record assembly from the scan state. -/
def finishOutcome (b : BestState) : ExtractedOutcome :=
  { callback_date := b.bestDate, callback_time := b.bestTime,
    outcome := classifyOutcome b, notes := buildNotes b,
    confidence := b.bestConf }

/-- `extract_outcome_from_transcripts`: empty-transcript guard, disinterest
guard, newest-first agent scan, user fallback scan, classification.  A
`ValueError` escaping `datetime(...)` propagates as `.error`, as in the
source. -/
def extract_outcome_from_transcripts (ts : List TranscriptEntry)
    (refDt : PyDateTime) : Except String ExtractedOutcome := do
  if ts.isEmpty then
    return { outcome := "no_conversation", confidence := 0 }
  if check_not_interested_patterns ts then
    return { outcome := "not_interested", confidence := 8,
             notes := some "User expressed disinterest" }
  let agentEntries := ts.filter (fun e => e.role == "agent")
  let b1 ← agentEntries.reverse.foldlM (agentScanStep ts refDt) {}
  let userEntries := ts.filter (fun e => e.role == "user")
  let b2 ← userEntries.foldlM (userScanStep refDt) b1
  return finishOutcome b2

/-! ## Chunk buffer (`main.py` drain loops)

Both directions of the bridge drain their sample buffer with the same loop
shape (`_process_media_message` lines 243-249 for the inbound buffer,
`_gemini_reader` lines 430-437 for the outbound buffer):

    while len(buf) >= C:
        chunk = buf[:C]; buf = buf[C:]; forward(chunk)

The loop is embedded with explicit fuel (one unit per removed chunk; since
the source's loop only terminates for `C > 0`, the guard carries `0 < C`). -/

/-- Fuel-indexed drain loop: repeatedly split off the first `C` samples while
at least `C` remain; returns the forwarded chunks in order and the remaining
buffer. -/
def drainChunksF : Nat → Nat → List Int → List (List Int) × List Int
  | 0, _, buf => ([], buf)
  | fuel + 1, c, buf =>
    if 0 < c ∧ c ≤ buf.length then
      let r := drainChunksF fuel c (buf.drop c)
      (buf.take c :: r.1, r.2)
    else ([], buf)

/-- `drainReady()`: the drain loop with enough fuel (each iteration removes at
least one sample, so `buf.length` units always suffice). -/
def drainChunks (c : Nat) (buf : List Int) : List (List Int) × List Int :=
  drainChunksF buf.length c buf

/-- One append-then-drain step, as performed per received media payload /
per received audio message: extend the buffer, then drain full chunks. -/
def chunkStep (c : Nat) (st : List (List Int) × List Int) (batch : List Int) :
    List (List Int) × List Int :=
  let r := drainChunks c (st.2 ++ batch)
  (st.1 ++ r.1, r.2)

/-- A whole session of appends interleaved with drains, starting from an empty
buffer: returns all forwarded chunks (in order) and the final buffer. -/
def runAppends (c : Nat) (batches : List (List Int)) :
    List (List Int) × List Int :=
  batches.foldl (chunkStep c) ([], [])

/-- `_process_media_message`: decode the base64 A-law payload (decode and
companding are external primitives, passed in as `decodeM`; a failure drops
the packet), extend the inbound buffer, drain chunks of `c` samples.  Returns
the chunks forwarded to the AI backend and the new inbound buffer. -/
def processMediaMessage (decodeM : String → Option (List Int)) (c : Nat)
    (buf : List Int) (payload : Option String) : List (List Int) × List Int :=
  match payload with
  | none => ([], buf)
  | some p =>
    if p = "" then ([], buf)
    else
      match decodeM p with
      | none => ([], buf)
      | some samples => drainChunks c (buf ++ samples)

/-! ## `main.py` — Gemini-reader session state and per-message step

`_gemini_reader` is a loop over decoded JSON messages from the AI backend;
each iteration reads and mutates the session and may send frames to the
telephony peer or to the backend.  One iteration becomes `stepGemini`, a pure
function of the session state and the message; the loop is a fold. -/

/-- One element of `serverContent.modelTurn.parts`: either a JSON object
(whose `inlineData`, when present, is an object with an optional `data`
field) or a non-object value (skipped by the `isinstance` guard). -/
inductive GPart where
  | obj (inlineData : Option (Option String)) (text : Option String)
  | nonDict
deriving Repr, DecidableEq

/-- `outputTranscription` payload: optional `text`, `finished` flag. -/
structure OutputTrans where
  text : Option String := none
  finished : Bool := false
deriving Repr, DecidableEq

/-- The `serverContent` object of a backend message (present iff the Python
dict is non-empty, hence truthy at line 334). -/
structure ServerContent where
  interrupted : Bool := false
  outputTranscription : Option OutputTrans := none
  inputTranscription : Option (Option String) := none
  parts : List GPart := []
  turnComplete : Bool := false
deriving Repr, DecidableEq

/-- One entry of `toolCall.functionCalls`. -/
structure FunctionCall where
  id : Option String := none
  name : Option String := none
deriving Repr, DecidableEq

/-- A decoded AI-backend message, in the shapes `_gemini_reader` consumes. -/
structure GeminiMsg where
  setupComplete : Bool := false
  toolCall : Option (List FunctionCall) := none
  serverContent : Option ServerContent := none
deriving Repr, DecidableEq

/-- `_is_interrupted`. -/
def is_interrupted (msg : GeminiMsg) : Bool :=
  match msg.serverContent with
  | some sc => sc.interrupted
  | none => false

/-- `_extract_audio_b64_from_gemini_message`: the `data` of the `inlineData`
of the FIRST part only; `None` when parts are absent/empty, the first part is
not a dict, it has no `inlineData`, or `inlineData` carries no `data`. -/
def extract_audio_b64_from_gemini_message (msg : GeminiMsg) : Option String :=
  match msg.serverContent with
  | none => none
  | some sc =>
    match sc.parts with
    | [] => none
    | p :: _ =>
      match p with
      | .nonDict => none
      | .obj inl _ =>
        match inl with
        | none => none
        | some d => d

/-- A frame sent to the telephony peer: an outbound audio chunk
(`{event:"media", …}`, payload = the PCM chunk before the external A-law
encode) or the barge-in `{event:"clear", …}` frame.  The source wraps each
send in try/except and swallows failures, so the trace records attempted
sends. -/
inductive TelEvent where
  | media (chunk : List Int)
  | clear
deriving Repr, DecidableEq

/-- Is a telephony frame an audio chunk? -/
def isMediaEvent : TelEvent → Bool
  | .media _ => true
  | .clear => false

/-- A frame sent to the AI backend from inside the reader loop. -/
inductive GemOut where
  | textPrompt (s : String)
  | toolResponse (id : Option String)
deriving Repr, DecidableEq

/-- The slice of `Config` that `_gemini_reader` consults.  Defaults follow
`config.py` (`DEBUG=false`, `LOG_TRANSCRIPTS=true`, `SAVE_TRANSCRIPTS=true`,
`AUTO_END_CALL=false`, the farewell phrase list, 100 ms × 8 kHz = 800-sample
outbound chunks). -/
structure GCfg where
  debug : Bool := false
  logTranscripts : Bool := true
  saveTranscripts : Bool := true
  autoEndCall : Bool := false
  endCallPhrases : String := "thank you,thanks,thank-you,goodbye,bye"
  chunkOut : Nat := 800
deriving Repr, DecidableEq

/-- The mutable per-session state touched by `_gemini_reader`, plus the
ordered trace of frames sent to each peer. -/
structure GSession where
  outputBuffer : List Int := []
  currentAgentTranscript : List String := []
  transcripts : List TranscriptEntry := []
  endAfterTurn : Bool := false
  sentTel : List TelEvent := []
  sentGem : List GemOut := []
deriving Repr, DecidableEq

/-- `_should_end_call`: only short (≤ 100 chars) combined texts containing a
configured farewell phrase request call end. -/
def should_end_call (texts : List String) (phrases : List String) : Bool :=
  if texts.isEmpty then false
  else
    let combined := pyStrip (pyLower (String.intercalate " " texts))
    if 100 < combined.length then false
    else phrases.any (fun p => p ≠ "" && strContains combined p)

/-- The greeting trigger prompt sent on `setupComplete`. -/
def greetingPrompt : String :=
  "[CALL_CONNECTED] A new call has started. Greet the user now."

/-- Lines 298-307: on `setupComplete`, send the greeting trigger. -/
def stepSetup (msg : GeminiMsg) (s : GSession) : GSession :=
  if msg.setupComplete then
    { s with sentGem := s.sentGem ++ [.textPrompt greetingPrompt] }
  else s

/-- Handling of one entry of `toolCall.functionCalls` (lines 313-330): an
`end_call` call sets `end_after_turn` and acknowledges with a tool response.
-/
def toolCallStep (st : GSession) (fc : FunctionCall) : GSession :=
  if fc.name = some "end_call" then
    { st with endAfterTurn := true,
              sentGem := st.sentGem ++ [.toolResponse fc.id] }
  else st

/-- Lines 310-330: the loop over `toolCall.functionCalls`. -/
def stepToolCalls (msg : GeminiMsg) (s : GSession) : GSession :=
  match msg.toolCall with
  | none => s
  | some fcs => fcs.foldl toolCallStep s

/-- Lines 346-374: `outputTranscription` handling on the only session fields
the block touches (the utterance accumulator, the transcript list and the
`end_after_turn` flag): accumulate fragments; on `finished` with a non-empty
accumulator, commit the joined stripped text as an agent transcript entry
(timestamps are wall clock, recorded here as `""`), run the farewell detector
when `AUTO_END_CALL`, then clear the accumulator. -/
def outputTransUpdate (cfg : GCfg) (ot : OutputTrans) (cat : List String)
    (tr : List TranscriptEntry) (flag : Bool) :
    List String × List TranscriptEntry × Bool :=
  let cat1 :=
    match ot.text with
    | some t => if t ≠ "" then cat ++ [t] else cat
    | none => cat
  if ot.finished ∧ ¬cat1.isEmpty then
    let fullText := pyStrip (String.join cat1)
    if fullText ≠ "" then
      let tr2 := if cfg.saveTranscripts then tr ++ [⟨"agent", fullText, ""⟩]
                 else tr
      let flag2 :=
        if cfg.autoEndCall then
          let phrases := (pySplitComma cfg.endCallPhrases).map
            (fun p => pyLower (pyStrip p))
          if should_end_call [fullText] phrases then true else flag
        else flag
      ([], tr2, flag2)
    else ([], tr, flag)
  else (cat1, tr, flag)

/-- The `outputTranscription` block as a session update. -/
def stepOutputTrans (cfg : GCfg) (sc : ServerContent) (s : GSession) : GSession :=
  match sc.outputTranscription with
  | none => s
  | some ot =>
    let r := outputTransUpdate cfg ot s.currentAgentTranscript s.transcripts
      s.endAfterTurn
    { s with currentAgentTranscript := r.1, transcripts := r.2.1,
             endAfterTurn := r.2.2 }

/-- Lines 377-387: `inputTranscription` — commit the stripped user text
immediately when transcripts are being saved. -/
def stepInputTrans (cfg : GCfg) (sc : ServerContent) (s : GSession) : GSession :=
  match sc.inputTranscription with
  | none => s
  | some ut =>
    match ut with
    | some t =>
      if t ≠ "" ∧ cfg.saveTranscripts then
        { s with transcripts := s.transcripts ++ [⟨"user", pyStrip t, ""⟩] }
      else s
    | none => s

/-- Lines 332-399: the transcript block, gated exactly as in the source
(`DEBUG or LOG_TRANSCRIPTS`, then truthy `serverContent`, then
`LOG_TRANSCRIPTS or SAVE_TRANSCRIPTS`). -/
def stepTranscripts (cfg : GCfg) (msg : GeminiMsg) (s : GSession) : GSession :=
  if cfg.debug || cfg.logTranscripts then
    match msg.serverContent with
    | some sc =>
      if cfg.logTranscripts || cfg.saveTranscripts then
        stepInputTrans cfg sc (stepOutputTrans cfg sc s)
      else s
    | none => s
  else s

/-- Lines 424-454: extract first-part audio, decode and resample through the
external primitive `dec`, extend the outbound buffer and forward full chunks
(the A-law re-encode is external; chunks are recorded as sample lists). -/
def stepAudio (cfg : GCfg) (dec : String → List Int) (msg : GeminiMsg)
    (s : GSession) : GSession :=
  match extract_audio_b64_from_gemini_message msg with
  | none => s
  | some b64 =>
    if b64 = "" then s
    else
      let r := drainChunks cfg.chunkOut (s.outputBuffer ++ dec b64)
      { s with outputBuffer := r.2,
               sentTel := s.sentTel ++ r.1.map TelEvent.media }

/-- One iteration of `_gemini_reader`'s message loop: setup-complete greeting,
tool calls, transcript block, then either the barge-in branch (clear the
outbound buffer, send the clear frame, discard the utterance accumulator,
`continue`) or the audio branch. -/
def interruptOrAudio (cfg : GCfg) (dec : String → List Int)
    (msg : GeminiMsg) (s3 : GSession) : GSession :=
  if is_interrupted msg then
    { s3 with outputBuffer := [],
              sentTel := s3.sentTel ++ [.clear],
              currentAgentTranscript := [] }
  else
    stepAudio cfg dec msg s3

/-- One full reader iteration: the pre-audio phases followed by the
interrupt-or-audio branch. -/
def stepGemini (cfg : GCfg) (dec : String → List Int) (s : GSession)
    (msg : GeminiMsg) : GSession :=
  interruptOrAudio cfg dec msg
    (stepTranscripts cfg msg (stepToolCalls msg (stepSetup msg s)))

/-- The reader loop over a message sequence. -/
def runGemini (cfg : GCfg) (dec : String → List Int) (s : GSession)
    (msgs : List GeminiMsg) : GSession :=
  msgs.foldl (stepGemini cfg dec) s

/-! ## `_end_call_monitor`

Time is discretised in ticks of 0.5 s (the monitor's poll interval).  The
grace sleep of 1.0 s is 2 ticks; `max_wait = 15` s is 30 ticks; `waited`
advances one tick per poll iteration.  The shared reads of `session.closed`
and `session.output_buffer` at poll `i` are supplied as observation streams
`closedF i` / `emptyF i`; the re-read of `closed` after the loop (line 189)
is the extra observation `closedAfter`. -/

/-- Result of the inner wait loop (lines 174-187). -/
inductive WaitLoopRes where
  | sawClosed
  | drained (waited : Nat)
  | timeUp (waited : Nat)
deriving Repr, DecidableEq

/-- The inner wait loop: at each iteration check `closed`, then the buffer;
three consecutive empty observations break out; otherwise sleep one tick.
`fuel + waited = 30` at every call from the entry point. -/
def waitLoop (closedF emptyF : Nat → Bool) : Nat → Nat → Nat → WaitLoopRes
  | 0, waited, _ => .timeUp waited
  | fuel + 1, waited, emptyCount =>
    if closedF waited then .sawClosed
    else if emptyF waited then
      if 3 ≤ emptyCount + 1 then .drained waited
      else waitLoop closedF emptyF fuel (waited + 1) (emptyCount + 1)
    else waitLoop closedF emptyF fuel (waited + 1) 0

/-- What the monitor does once `end_after_turn` is observed true.  Returns
either "exited without closing" (the session was closed by another path) or
"closed the connections" with the total elapsed ticks (grace + waited). -/
inductive MonitorRes where
  | exitNoClose
  | closeCall (totalTicks : Nat)
deriving Repr, DecidableEq

/-- `_end_call_monitor` from the moment `end_after_turn` is seen true: sleep
the 1.0 s grace (2 ticks), run the wait loop, re-check `closed`, then close
both connections. -/
def endCallMonitor (closedF emptyF : Nat → Bool) (closedAfter : Bool) :
    MonitorRes :=
  match waitLoop closedF emptyF 30 0 0 with
  | .sawClosed => .exitNoClose
  | .drained w => if closedAfter then .exitNoClose else .closeCall (2 + w)
  | .timeUp w => if closedAfter then .exitNoClose else .closeCall (2 + w)

/-! ## Identity negotiation (`handle_client` lines 547-607)

`resolveUcid` is the `or`-chain of line 599-607 (Python `or`: first truthy
operand, where `None` and `""` are falsy).  The negotiation loop reads up to
50 frames with a 10 s timeout each; a timed-out read raises and is answered
by `close(1008, "Timeout waiting for start event")` (line 727-729); running
out of the 50 attempts with no fallback identity is answered by
`close(1008, "Expected start event")` (line 593). -/

/-- The candidate id fields of a start message (top-level `ucid`,
`start.ucid`, top-level `stream_sid`, `start.stream_sid`, `start.call_sid`,
legacy `data.ucid`); `none` models an absent field. -/
structure StartMsg where
  ucid : Option String := none
  startUcid : Option String := none
  streamSid : Option String := none
  startStreamSid : Option String := none
  startCallSid : Option String := none
  dataUcid : Option String := none
deriving Repr, DecidableEq

/-- Python truthiness of an optional string field. -/
def strTruthy : Option String → Bool
  | none => false
  | some s => s ≠ ""

/-- One link of a Python `or` chain over optional string fields, with the
rest of the chain already resolved to a string. -/
def pyOrStr (a : Option String) (b : String) : String :=
  match a with
  | some s => if s = "" then b else s
  | none => b

/-- Lines 599-607: the ucid `or`-chain, falling back to the identity already
inferred from earlier media (`session.ucid`). -/
def resolveUcid (m : StartMsg) (prior : String) : String :=
  pyOrStr m.ucid (pyOrStr m.startUcid (pyOrStr m.streamSid
    (pyOrStr m.startStreamSid (pyOrStr m.startCallSid
      (pyOrStr m.dataUcid prior)))))

/-- Modelled from the spec ("Identity resolution precedence (first non-empty
wins)"): take the first non-empty candidate in the documented order, else the
fallback.  Stated only to be compared with `resolveUcid`, the definition
taken from the source. -/
def specFirstNonEmpty : List (Option String) → String → String
  | [], fallback => fallback
  | o :: rest, fallback =>
    match o with
    | some s => if s = "" then specFirstNonEmpty rest fallback else s
    | none => specFirstNonEmpty rest fallback

/-- One result of `client_ws.recv()` during negotiation: a timeout of the
10 s `asyncio.wait_for`, an unparsable/non-text frame (dropped), or a decoded
JSON message with its `event` field and its id fields. -/
inductive RecvEv where
  | timeout
  | invalid
  | jmsg (event : Option String) (sm : StartMsg)

/-- The close reason of the timeout path (line 729). -/
def reasonTimeout : String := "Timeout waiting for start event"

/-- The close reason of the exhausted-attempts path (line 593). -/
def reasonNoStart : String := "Expected start event"

/-- Outcome of identity negotiation: the connection is closed with a code and
reason, the peer terminated first (`stop`/`end`/`close` before `start`), or
the session proceeds towards ACTIVE with the resolved identity. -/
inductive NegOutcome where
  | closeConn (code : Nat) (reason : String)
  | terminated
  | proceed (ucid : String)
deriving Repr, DecidableEq

/-- The negotiation loop (`for _ in range(50)` at line 551), reading frame
`i` from the stream `ev`; `u` is `session.ucid` (starts `"UNKNOWN"`, may be
filled from a media frame's `stream_sid`). -/
def negotiateLoop (ev : Nat → RecvEv) : Nat → Nat → String → NegOutcome
  | 0, _, u =>
    if u = "UNKNOWN" then .closeConn 1008 reasonNoStart else .proceed u
  | fuel + 1, i, u =>
    match ev i with
    | .timeout => .closeConn 1008 reasonTimeout
    | .invalid => negotiateLoop ev fuel (i + 1) u
    | .jmsg e sm =>
      if e = some "start" then .proceed (resolveUcid sm u)
      else if e = some "media" then
        let u2 := if u = "UNKNOWN" ∧ strTruthy sm.streamSid then
            sm.streamSid.getD u else u
        negotiateLoop ev fuel (i + 1) u2
      else if e = some "stop" ∨ e = some "end" ∨ e = some "close" then
        .terminated
      else negotiateLoop ev fuel (i + 1) u

/-- The whole negotiation: 50 attempts starting from `ucid = "UNKNOWN"`. -/
def negotiateRun (ev : Nat → RecvEv) : NegOutcome :=
  negotiateLoop ev 50 0 "UNKNOWN"

/-! ## Concrete instances used by the witnesses -/

/-- A concrete interrupted message. -/
def interruptedMsg : GeminiMsg :=
  { serverContent :=
      some { interrupted := true, parts := [.obj (some (some "QUJD")) none] } }

/-- A session with pending outbound audio, a pending utterance fragment and a
previously forwarded chunk. -/
def busySession : GSession :=
  { outputBuffer := [1, 2, 3], currentAgentTranscript := ["Hel"],
    sentTel := [.media [9, 9]] }

/-- The `inlineData.data` payload a part contributes when it is the first
part: `None` for non-dict parts, missing/empty (falsy) `inlineData`, and
`inlineData` without `data`. -/
def partInlineData : GPart → Option String
  | .nonDict => none
  | .obj none _ => none
  | .obj (some d) _ => d

/-- A message whose first part is text-only and whose second part carries
base64 audio. -/
def laterAudioMsg : GeminiMsg :=
  { serverContent :=
      some { parts := [.obj none (some "hello"),
                       .obj (some (some "QUJD")) none] } }

/-- The reference datetime 2026-01-28 of the specification's determinism
test. -/
def refDt2026 : PyDateTime := ⟨2026, 1, 28, 0⟩

/-- The fixed transcript of the specification's determinism test:
agent confirmation plus user "Yes". -/
def scheduledTranscript : List TranscriptEntry :=
  [⟨"agent", "You are all set for January 30th at 5 pm", ""⟩,
   ⟨"user", "Yes", ""⟩]

/-- What the source actually computes on `scheduledTranscript`. -/
def scheduledResult : ExtractedOutcome :=
  { callback_date := some "2026-01-30", callback_time := some "30:00",
    outcome := "scheduled", notes := some "Date: 2026-01-30, Time: 30:00",
    confidence := 10 }

/-- A configuration with `AUTO_END_CALL` enabled and everything else at its
`config.py` default. -/
def cfgAutoEnd : GCfg := { autoEndCall := true }

/-- The farewell-gate test utterance of the specification (actually 51
characters long, not more than 100). -/
def longFarewellText : String :=
  "Thank you for confirming your details, see you then"

/-- A finalized output-transcription message carrying the given text. -/
def farewellMsg (t : String) : GeminiMsg :=
  { serverContent :=
      some { outputTranscription := some { text := some t, finished := true } } }

/-- A transcript whose user refuses while the agent mentions a parseable
date and time. -/
def disinterestTranscript : List TranscriptEntry :=
  [⟨"user", "I" ++ String.singleton apoC ++
      "m not interested, please stop calling", ""⟩,
   ⟨"agent", "We could schedule January 30th at 5 pm", ""⟩]

/-- A start message populating both a top-level id and a nested stream id. -/
def bothIdsMsg : StartMsg :=
  { ucid := some "top-ucid", startStreamSid := some "nested-stream" }

/-- A transcript where BOTH a date and a time appear, but only in a user
entry, so the accumulated confidence stays 0. -/
def bothFromUserTranscript : List TranscriptEntry :=
  [⟨"user", "call me January 30th at 5 pm", ""⟩]

/-- A buffer-observation stream that is always empty. -/
def alwaysEmptyBuf : Nat → Bool := fun _ => true

/-- A closed-observation stream that is always false. -/
def neverClosed : Nat → Bool := fun _ => false

/-! ## Theorems -/

section ChunkLemmas

/-- Core specification of the drain loop, by induction on the fuel: with
positive chunk size and sufficient fuel, every produced chunk has length
exactly `c`, concatenating the chunks and the remainder restores the buffer,
and the remainder is shorter than `c`. -/
theorem drainChunksF_spec (c : Nat) (hc : 0 < c) :
    ∀ fuel buf, buf.length ≤ fuel →
      (∀ ch ∈ (drainChunksF fuel c buf).1, ch.length = c) ∧
      (drainChunksF fuel c buf).1.flatten ++ (drainChunksF fuel c buf).2 = buf ∧
      (drainChunksF fuel c buf).2.length < c := by
  intro fuel
  induction fuel with
  | zero =>
    intro buf hlen
    simp only [drainChunksF]
    have h0 : buf.length = 0 := Nat.le_zero.mp hlen
    refine ⟨by simp, by simp, ?_⟩
    omega
  | succ fuel ih =>
    intro buf hlen
    by_cases hcond : 0 < c ∧ c ≤ buf.length
    · have hdrop : (buf.drop c).length ≤ fuel := by
        rw [List.length_drop]; omega
      obtain ⟨ih1, ih2, ih3⟩ := ih (buf.drop c) hdrop
      simp only [drainChunksF, if_pos hcond]
      refine ⟨?_, ?_, ih3⟩
      · intro ch hch
        rcases List.mem_cons.mp hch with h | h
        · subst h
          simp [List.length_take]
          omega
        · exact ih1 ch h
      · simp only [List.flatten_cons, List.append_assoc, ih2]
        exact List.take_append_drop c buf
    · simp only [drainChunksF, if_neg hcond]
      refine ⟨by simp, by simp, ?_⟩
      rcases Nat.lt_or_ge buf.length c with h | h
      · exact h
      · exact absurd ⟨hc, h⟩ hcond

/-- `drainReady()` contract for a single drain (the fuel `buf.length` always
suffices since each iteration removes at least one sample). -/
theorem drainChunks_spec (c : Nat) (hc : 0 < c) (buf : List Int) :
    (∀ ch ∈ (drainChunks c buf).1, ch.length = c) ∧
    (drainChunks c buf).1.flatten ++ (drainChunks c buf).2 = buf ∧
    (drainChunks c buf).2.length < c :=
  drainChunksF_spec c hc buf.length buf le_rfl

/-- Fold invariant for a whole session of appends and drains. -/
theorem runAppends_aux (c : Nat) (hc : 0 < c) :
    ∀ (batches : List (List Int)) (sent : List (List Int)) (buf : List Int),
      buf.length < c → (∀ ch ∈ sent, ch.length = c) →
      (∀ ch ∈ (batches.foldl (chunkStep c) (sent, buf)).1, ch.length = c) ∧
      (batches.foldl (chunkStep c) (sent, buf)).2.length < c ∧
      (batches.foldl (chunkStep c) (sent, buf)).1.flatten ++
        (batches.foldl (chunkStep c) (sent, buf)).2 =
        sent.flatten ++ buf ++ batches.flatten := by
  intro batches
  induction batches with
  | nil =>
    intro sent buf hbuf hsent
    refine ⟨hsent, hbuf, ?_⟩
    simp
  | cons b bs ih =>
    intro sent buf hbuf hsent
    obtain ⟨d1, d2, d3⟩ := drainChunks_spec c hc (buf ++ b)
    have hstep : chunkStep c (sent, buf) b =
        (sent ++ (drainChunks c (buf ++ b)).1, (drainChunks c (buf ++ b)).2) := rfl
    have hsent2 : ∀ ch ∈ sent ++ (drainChunks c (buf ++ b)).1, ch.length = c := by
      intro ch hch
      rcases List.mem_append.mp hch with h | h
      · exact hsent ch h
      · exact d1 ch h
    obtain ⟨r1, r2, r3⟩ := ih (sent ++ (drainChunks c (buf ++ b)).1)
      (drainChunks c (buf ++ b)).2 d3 hsent2
    simp only [List.foldl_cons, hstep]
    refine ⟨r1, r2, ?_⟩
    rw [r3]
    simp only [List.flatten_append, List.flatten_cons, List.append_assoc]
    congr 1
    rw [← List.append_assoc, d2, List.append_assoc]

end ChunkLemmas

/-- C1: for every chunk size `c > 0` and every sequence of appended sample
batches, the drain loop (shared by the inbound buffer in
`_process_media_message` and the outbound buffer in `_gemini_reader`)
forwards chunks of exactly `c` samples, leaves fewer than `c` samples in the
buffer, and preserves every sample in arrival order: the concatenation of the
forwarded chunks followed by the remaining buffer equals the concatenation of
everything appended. -/
theorem chunkBufferConservation (c : Nat) (batches : List (List Int))
    (hc : 0 < c) :
    (∀ ch ∈ (runAppends c batches).1, ch.length = c) ∧
    (runAppends c batches).2.length < c ∧
    (runAppends c batches).1.flatten ++ (runAppends c batches).2 = batches.flatten := by
  obtain ⟨h1, h2, h3⟩ := runAppends_aux c hc batches [] [] (by simpa using hc) (by simp)
  exact ⟨h1, h2, by simpa using h3⟩

/-- Witness for C1 at chunk size 2 and batches `[[1,2,3],[4,5]]`: the
forwarded chunks are `[1,2]` and `[3,4]`, the remainder is `[5]`. -/
theorem chunkBufferConservationWitness :
    runAppends 2 [[1, 2, 3], [4, 5]] = ([[1, 2], [3, 4]], [5]) ∧
    (runAppends 2 [[1, 2, 3], [4, 5]]).2.length < 2 ∧
    (runAppends 2 [[1, 2, 3], [4, 5]]).1.flatten ++
      (runAppends 2 [[1, 2, 3], [4, 5]]).2 = [[1, 2, 3], [4, 5]].flatten := by
  have h := chunkBufferConservation 2 [[1, 2, 3], [4, 5]] (by decide)
  exact ⟨by decide, h.2.1, h.2.2⟩


section SessionLemmas

/-- `stepSetup` only appends a backend prompt. -/
theorem stepSetup_preserves (m : GeminiMsg) (s : GSession) :
    (stepSetup m s).sentTel = s.sentTel ∧
    (stepSetup m s).outputBuffer = s.outputBuffer := by
  unfold stepSetup
  split <;> exact ⟨rfl, rfl⟩

/-- `toolCallStep` never touches the telephony trace or the outbound buffer. -/
theorem toolCallStep_preserves (st : GSession) (fc : FunctionCall) :
    (toolCallStep st fc).sentTel = st.sentTel ∧
    (toolCallStep st fc).outputBuffer = st.outputBuffer := by
  unfold toolCallStep
  split <;> exact ⟨rfl, rfl⟩

/-- The `functionCalls` fold never touches the telephony trace or the
outbound buffer. -/
theorem toolFold_preserves (fcs : List FunctionCall) :
    ∀ s : GSession,
      (fcs.foldl toolCallStep s).sentTel = s.sentTel ∧
      (fcs.foldl toolCallStep s).outputBuffer = s.outputBuffer := by
  induction fcs with
  | nil => intro s; exact ⟨rfl, rfl⟩
  | cons fc rest ih =>
    intro s
    have h1 := toolCallStep_preserves s fc
    have h2 := ih (toolCallStep s fc)
    simp only [List.foldl_cons]
    exact ⟨h2.1.trans h1.1, h2.2.trans h1.2⟩

/-- `stepToolCalls` never touches the telephony trace or the outbound
buffer. -/
theorem stepToolCalls_preserves (m : GeminiMsg) (s : GSession) :
    (stepToolCalls m s).sentTel = s.sentTel ∧
    (stepToolCalls m s).outputBuffer = s.outputBuffer := by
  unfold stepToolCalls
  cases m.toolCall with
  | none => exact ⟨rfl, rfl⟩
  | some fcs => exact toolFold_preserves fcs s

/-- The output-transcription handler only touches the transcript fields and
the end flag, never the telephony trace or the outbound buffer. -/
theorem stepOutputTrans_preserves (cfg : GCfg) (sc : ServerContent)
    (s : GSession) :
    (stepOutputTrans cfg sc s).sentTel = s.sentTel ∧
    (stepOutputTrans cfg sc s).outputBuffer = s.outputBuffer := by
  unfold stepOutputTrans
  cases sc.outputTranscription <;> exact ⟨rfl, rfl⟩

/-- The input-transcription handler never touches the telephony trace or the
outbound buffer. -/
theorem stepInputTrans_preserves (cfg : GCfg) (sc : ServerContent)
    (s : GSession) :
    (stepInputTrans cfg sc s).sentTel = s.sentTel ∧
    (stepInputTrans cfg sc s).outputBuffer = s.outputBuffer := by
  unfold stepInputTrans
  rcases sc.inputTranscription with _ | ut
  · exact ⟨rfl, rfl⟩
  · cases ut
    · exact ⟨rfl, rfl⟩
    · simp only
      split <;> exact ⟨rfl, rfl⟩

/-- The whole transcript block never touches the telephony trace or the
outbound buffer. -/
theorem stepTranscripts_preserves (cfg : GCfg) (m : GeminiMsg) (s : GSession) :
    (stepTranscripts cfg m s).sentTel = s.sentTel ∧
    (stepTranscripts cfg m s).outputBuffer = s.outputBuffer := by
  unfold stepTranscripts
  split
  · cases m.serverContent with
    | none => exact ⟨rfl, rfl⟩
    | some sc =>
      simp only
      split
      · have h1 := stepOutputTrans_preserves cfg sc s
        have h2 := stepInputTrans_preserves cfg sc (stepOutputTrans cfg sc s)
        exact ⟨h2.1.trans h1.1, h2.2.trans h1.2⟩
      · exact ⟨rfl, rfl⟩
  · exact ⟨rfl, rfl⟩

/-- The three pre-audio phases of one reader iteration leave the telephony
trace and the outbound buffer unchanged. -/
theorem preAudio_preserves (cfg : GCfg) (m : GeminiMsg) (s : GSession) :
    (stepTranscripts cfg m (stepToolCalls m (stepSetup m s))).sentTel =
      s.sentTel ∧
    (stepTranscripts cfg m (stepToolCalls m (stepSetup m s))).outputBuffer =
      s.outputBuffer := by
  have h1 := stepSetup_preserves m s
  have h2 := stepToolCalls_preserves m (stepSetup m s)
  have h3 := stepTranscripts_preserves cfg m (stepToolCalls m (stepSetup m s))
  exact ⟨(h3.1.trans h2.1).trans h1.1, (h3.2.trans h2.2).trans h1.2⟩

/-- Every reader iteration only appends to the telephony trace. -/
theorem stepGemini_sentTel_mono (cfg : GCfg) (dec : String → List Int)
    (s : GSession) (m : GeminiMsg) :
    ∃ t, (stepGemini cfg dec s m).sentTel = s.sentTel ++ t := by
  unfold stepGemini interruptOrAudio
  have hp := preAudio_preserves cfg m s
  split
  · exact ⟨[.clear], by simp [hp.1]⟩
  · unfold stepAudio
    rcases hx : extract_audio_b64_from_gemini_message m with _ | b64
    · exact ⟨[], by simp [hp.1]⟩
    · simp only
      split
      · exact ⟨[], by simp [hp.1]⟩
      · exact ⟨_, by rw [hp.1]⟩

/-- The reader loop only appends to the telephony trace. -/
theorem runGemini_sentTel_mono (cfg : GCfg) (dec : String → List Int) :
    ∀ (msgs : List GeminiMsg) (s : GSession),
      ∃ t, (runGemini cfg dec s msgs).sentTel = s.sentTel ++ t := by
  intro msgs
  induction msgs with
  | nil => intro s; exact ⟨[], by simp [runGemini]⟩
  | cons m rest ih =>
    intro s
    obtain ⟨t1, h1⟩ := stepGemini_sentTel_mono cfg dec s m
    obtain ⟨t2, h2⟩ := ih (stepGemini cfg dec s m)
    refine ⟨t1 ++ t2, ?_⟩
    have hstep : runGemini cfg dec s (m :: rest) =
        runGemini cfg dec (stepGemini cfg dec s m) rest := rfl
    rw [hstep, h2, h1, List.append_assoc]

end SessionLemmas

/-- C3: processing an AI-backend message carrying the interrupted signal
leaves the outbound-pending buffer empty, discards the in-progress
output-utterance accumulator, and appends exactly one clear-playback frame to
the telephony trace; every frame forwarded while processing any further
messages comes strictly after that clear frame in the trace. -/
theorem interruptClearsBeforeForwarding (cfg : GCfg) (dec : String → List Int)
    (s : GSession) (msg : GeminiMsg) (rest : List GeminiMsg)
    (h : is_interrupted msg = true) :
    (stepGemini cfg dec s msg).outputBuffer = [] ∧
    (stepGemini cfg dec s msg).currentAgentTranscript = [] ∧
    (stepGemini cfg dec s msg).sentTel = s.sentTel ++ [.clear] ∧
    ∃ later, (runGemini cfg dec (stepGemini cfg dec s msg) rest).sentTel =
      (s.sentTel ++ [.clear]) ++ later := by
  have hp := preAudio_preserves cfg msg s
  have hstep : stepGemini cfg dec s msg =
      { stepTranscripts cfg msg (stepToolCalls msg (stepSetup msg s)) with
        outputBuffer := [],
        sentTel := (stepTranscripts cfg msg
          (stepToolCalls msg (stepSetup msg s))).sentTel ++ [.clear],
        currentAgentTranscript := [] } := by
    unfold stepGemini interruptOrAudio
    rw [if_pos h]
  refine ⟨by rw [hstep], by rw [hstep], ?_, ?_⟩
  · rw [hstep]
    simp only
    rw [hp.1]
  · obtain ⟨t, ht⟩ := runGemini_sentTel_mono cfg dec rest (stepGemini cfg dec s msg)
    refine ⟨t, ?_⟩
    rw [ht, hstep]
    simp only
    rw [hp.1]

/-- Witness for C3: on a concrete interrupted message (which even carries
audio in its first part) the buffer and accumulator come out empty and the
clear frame is appended to the trace. -/
theorem interruptClearsBeforeForwardingWitness :
    (stepGemini {} (fun _ => [5, 5]) busySession interruptedMsg).outputBuffer
        = [] ∧
    (stepGemini {} (fun _ => [5, 5]) busySession
        interruptedMsg).currentAgentTranscript = [] ∧
    (stepGemini {} (fun _ => [5, 5]) busySession interruptedMsg).sentTel =
      [.media [9, 9], .clear] := by
  have h := interruptClearsBeforeForwarding {} (fun _ => [5, 5]) busySession
    interruptedMsg [] (by rfl)
  exact ⟨h.1, h.2.1, h.2.2.1⟩

/-- C10: audio is demultiplexed from the FIRST element of
`serverContent.modelTurn.parts` only: when that first part contributes no
`inlineData` payload, extraction yields nothing and the reader iteration
forwards no audio chunk to the telephony peer, whatever audio later parts of
the same message carry. -/
theorem firstPartOnlyAudioExtraction (cfg : GCfg) (dec : String → List Int)
    (s : GSession) (msg : GeminiMsg) (sc : ServerContent) (p : GPart)
    (ps : List GPart) (hsc : msg.serverContent = some sc)
    (hparts : sc.parts = p :: ps) (hinl : partInlineData p = none) :
    extract_audio_b64_from_gemini_message msg = none ∧
    ((stepGemini cfg dec s msg).sentTel.filter isMediaEvent =
      s.sentTel.filter isMediaEvent) := by
  have hex : extract_audio_b64_from_gemini_message msg = none := by
    unfold extract_audio_b64_from_gemini_message
    rw [hsc]
    simp only [hparts]
    cases p with
    | nonDict => rfl
    | obj inl txt =>
      cases inl with
      | none => rfl
      | some d => simpa [partInlineData] using hinl
  refine ⟨hex, ?_⟩
  have hp := preAudio_preserves cfg msg s
  unfold stepGemini interruptOrAudio
  split
  · simp only
    rw [hp.1]
    simp [isMediaEvent]
  · unfold stepAudio
    rw [hex]
    simp only
    rw [hp.1]

/-- Witness for C10: on the concrete message above, nothing is extracted and
no media frame is forwarded, though the second part carries audio. -/
theorem firstPartOnlyAudioExtractionWitness :
    extract_audio_b64_from_gemini_message laterAudioMsg = none ∧
    (stepGemini {} (fun _ => [7, 7]) busySession laterAudioMsg).sentTel.filter
        isMediaEvent =
      busySession.sentTel.filter isMediaEvent := by
  exact firstPartOnlyAudioExtraction {} (fun _ => [7, 7]) busySession
    laterAudioMsg _ _ _ (by rfl) (by rfl) (by rfl)

/-- C2: evaluation of the extractor at the fixed transcript with reference
date 2026-01-28.  The date, the outcome tag and the confidence (1.0 ≥ 0.7)
come out as claimed, but the callback time is `"30:00"`, not `"17:00"`:
`_parse_time`'s regex `(\d{1,2})(?::(\d{2}))?\s*(am|pm|…)?` has only the hour
group mandatory, so `re.search` stops at the leftmost digits — the day number
"30" — and reads them as the hour, contradicting the source's own docstring
example `"January 30th at 5 pm" -> ("2026-01-30", "17:00")`. -/
theorem timeParsingAtScheduledTranscript :
    extract_outcome_from_transcripts scheduledTranscript refDt2026 =
      .ok scheduledResult ∧
    scheduledResult.callback_time = some "30:00" ∧
    parse_time "you are all set for january 30th at 5 pm" = some "30:00" ∧
    parse_time "5 pm" = some "17:00" := by
  refine ⟨?_, ?_, ?_, ?_⟩ <;> decide

/-- C5: evaluation of the farewell detector at the specification's two test
utterances, with the default phrase list and auto-end enabled.  The short
"Thanks, bye!" sets `end_after_turn` as claimed — but so does "Thank you for
confirming your details, see you then": the utterance is 51 characters long,
under the 100-character gate, and contains the phrase "thank you", although
`_should_end_call`'s docstring says it exists to prevent exactly this false
positive ("thank you for confirming your details"). -/
theorem farewellGateEvaluation :
    (stepGemini cfgAutoEnd (fun _ => []) {}
        (farewellMsg longFarewellText)).endAfterTurn = true ∧
    (stepGemini cfgAutoEnd (fun _ => []) {}
        (farewellMsg "Thanks, bye!")).endAfterTurn = true ∧
    longFarewellText.length = 51 ∧
    should_end_call [longFarewellText]
      ((pySplitComma ({} : GCfg).endCallPhrases).map
        (fun p => pyLower (pyStrip p))) = true := by
  refine ⟨?_, ?_, ?_, ?_⟩ <;> decide

/-- C6: whenever any user entry matches a disinterest pattern, extraction
returns `not_interested` with confidence 0.8 and performs no date/time
parsing — both callback fields are `none` — regardless of any date or time
present anywhere in the transcript. -/
theorem disinterestShortCircuits (ts : List TranscriptEntry)
    (refDt : PyDateTime) (h : check_not_interested_patterns ts = true) :
    extract_outcome_from_transcripts ts refDt =
      .ok { callback_date := none, callback_time := none,
            outcome := "not_interested",
            notes := some "User expressed disinterest", confidence := 8 } := by
  cases ts with
  | nil => simp [check_not_interested_patterns] at h
  | cons e rest =>
    unfold extract_outcome_from_transcripts
    simp [h]
    rfl

/-- Witness for C6 at the concrete refusing transcript. -/
theorem disinterestShortCircuitsWitness :
    check_not_interested_patterns disinterestTranscript = true ∧
    extract_outcome_from_transcripts disinterestTranscript refDt2026 =
      .ok { callback_date := none, callback_time := none,
            outcome := "not_interested",
            notes := some "User expressed disinterest", confidence := 8 } :=
  ⟨by decide, disinterestShortCircuits disinterestTranscript refDt2026 (by decide)⟩

/-- Unfolding step of the spec-side precedence list. -/
theorem specFirstNonEmpty_cons (o : Option String) (rest : List (Option String))
    (fb : String) :
    specFirstNonEmpty (o :: rest) fb = pyOrStr o (specFirstNonEmpty rest fb) := by
  cases o <;> rfl

/-- C7: the resolved call identifier is the first non-empty candidate in the
documented precedence order — top-level `ucid`, nested `start.ucid`,
top-level `stream_sid`, nested `start.stream_sid`, nested `start.call_sid`,
legacy `data.ucid` — falling back to the identity already inferred from
earlier media; in particular a non-empty top-level `ucid` always wins. -/
theorem identityPrecedenceResolution (m : StartMsg) (prior : String) :
    resolveUcid m prior =
      specFirstNonEmpty [m.ucid, m.startUcid, m.streamSid, m.startStreamSid,
        m.startCallSid, m.dataUcid] prior ∧
    (∀ u, m.ucid = some u → u ≠ "" → resolveUcid m prior = u) := by
  constructor
  · simp only [specFirstNonEmpty_cons]
    rfl
  · intro u hu hne
    unfold resolveUcid
    rw [hu]
    simp [pyOrStr, hne]

/-- Witness for C7: with both a top-level `ucid` and a nested
`start.stream_sid` populated, the top-level id wins, and the source's
`or`-chain agrees with the spec-side first-non-empty scan. -/
theorem identityPrecedenceResolutionWitness :
    resolveUcid bothIdsMsg "UNKNOWN" = "top-ucid" ∧
    specFirstNonEmpty [bothIdsMsg.ucid, bothIdsMsg.startUcid,
      bothIdsMsg.streamSid, bothIdsMsg.startStreamSid, bothIdsMsg.startCallSid,
      bothIdsMsg.dataUcid] "UNKNOWN" = "top-ucid" := by
  have h := identityPrecedenceResolution bothIdsMsg "UNKNOWN"
  refine ⟨h.2 "top-ucid" rfl (by decide), ?_⟩
  rw [← h.1]
  exact h.2 "top-ucid" rfl (by decide)

/-- Any close produced by the negotiation loop carries policy code 1008 and
one of exactly two reasons. -/
theorem negotiateLoop_close (ev : Nat → RecvEv) :
    ∀ fuel i u c r, negotiateLoop ev fuel i u = .closeConn c r →
      c = 1008 ∧ (r = reasonTimeout ∨ r = reasonNoStart) := by
  intro fuel
  induction fuel with
  | zero =>
    intro i u c r h
    unfold negotiateLoop at h
    split at h
    · cases h
      exact ⟨rfl, Or.inr rfl⟩
    · cases h
  | succ fuel ih =>
    intro i u c r h
    unfold negotiateLoop at h
    cases hev : ev i with
    | timeout =>
      rw [hev] at h
      cases h
      exact ⟨rfl, Or.inl rfl⟩
    | invalid =>
      rw [hev] at h
      exact ih _ _ _ _ h
    | jmsg e sm =>
      rw [hev] at h
      simp only at h
      split at h
      · cases h
      · split at h
        · exact ih _ _ _ _ h
        · split at h
          · cases h
          · exact ih _ _ _ _ h

/-- C9 (amended): whenever identity negotiation closes the telephony
connection — by the per-read timeout or by exhausting the 50-message ceiling
with no identity — the close carries the same policy code 1008 and one of the
two reasons `"Timeout waiting for start event"` (timeout) or
`"Expected start event"` (ceiling), and the session does not proceed towards
ACTIVE.  The two paths do NOT share one reason string, which corrects the
claim: see the counterexample. -/
theorem negotiationCloseCodeAndReasons (ev : Nat → RecvEv) (c : Nat)
    (r : String) (h : negotiateRun ev = .closeConn c r) :
    c = 1008 ∧ (r = reasonTimeout ∨ r = reasonNoStart) ∧
    ∀ u, negotiateRun ev ≠ .proceed u := by
  obtain ⟨h1, h2⟩ := negotiateLoop_close ev 50 0 "UNKNOWN" c r h
  refine ⟨h1, h2, fun u hu => ?_⟩
  rw [h] at hu
  cases hu

/-- Witness for C9's amended theorem at a stream of 50 non-start frames. -/
theorem negotiationCloseCodeAndReasonsWitness :
    (1008 : Nat) = 1008 ∧
    (reasonNoStart = reasonTimeout ∨ reasonNoStart = reasonNoStart) ∧
    negotiateRun (fun _ => .jmsg (some "ping") {}) ≠ .proceed "x" := by
  have h := negotiationCloseCodeAndReasons (fun _ => .jmsg (some "ping") {})
    1008 reasonNoStart (by decide)
  exact ⟨h.1, h.2.1, h.2.2 "x"⟩

/-- Counterexample for C9 as stated: the timeout trigger and the
message-count ceiling both close with code 1008, but with DIFFERENT terminal
reason strings, so "the same timeout terminal reason" fails on the code. -/
theorem negotiationReasonsDiffer :
    negotiateRun (fun _ => .timeout) = .closeConn 1008 reasonTimeout ∧
    negotiateRun (fun _ => .jmsg (some "ping") {}) =
      .closeConn 1008 reasonNoStart ∧
    reasonTimeout ≠ reasonNoStart := by
  refine ⟨?_, ?_, ?_⟩ <;> decide

/-- Bind inversion for `Except`. -/
theorem except_bind_ok {ε α β : Type} (x : Except ε α) (f : α → Except ε β)
    (b : β) : (x >>= f) = .ok b ↔ ∃ a, x = .ok a ∧ f a = .ok b := by
  cases x with
  | error e => simp [Bind.bind, Except.bind]
  | ok a => simp [Bind.bind, Except.bind]

/-- Case analysis of the classification if-chain of lines 282-288. -/
theorem classifyOutcome_spec (b : BestState) :
    (classifyOutcome b = "scheduled" ↔
      (b.bestDate.isSome ∧ b.bestTime.isSome ∧ 7 ≤ b.bestConf)) ∧
    (classifyOutcome b = "partially_scheduled" ↔
      ((b.bestDate.isSome ∨ b.bestTime.isSome) ∧
        ¬(b.bestDate.isSome ∧ b.bestTime.isSome ∧ 7 ≤ b.bestConf))) ∧
    (classifyOutcome b = "unknown" ↔
      (b.bestDate = none ∧ b.bestTime = none)) := by
  unfold classifyOutcome
  by_cases h1 : b.bestDate.isSome ∧ b.bestTime.isSome ∧ 7 ≤ b.bestConf
  · rw [if_pos h1]
    refine ⟨⟨fun _ => h1, fun _ => rfl⟩,
            ⟨fun hc => absurd hc (by decide), fun hc => absurd h1 hc.2⟩,
            ⟨fun hc => absurd hc (by decide), fun hc => ?_⟩⟩
    exact absurd h1.1 (by simp [hc.1])
  · rw [if_neg h1]
    by_cases h2 : b.bestDate.isSome ∨ b.bestTime.isSome
    · rw [if_pos h2]
      refine ⟨⟨fun hc => absurd hc (by decide), fun hc => absurd hc h1⟩,
              ⟨fun _ => ⟨h2, h1⟩, fun _ => rfl⟩,
              ⟨fun hc => absurd hc (by decide), fun hc => ?_⟩⟩
      rcases h2 with hd | ht
      · exact absurd hd (by simp [hc.1])
      · exact absurd ht (by simp [hc.2])
    · rw [if_neg h2]
      have hd : b.bestDate = none :=
        Option.not_isSome_iff_eq_none.mp (not_or.mp h2).1
      have ht : b.bestTime = none :=
        Option.not_isSome_iff_eq_none.mp (not_or.mp h2).2
      exact ⟨⟨fun hc => absurd hc (by decide), fun hc => absurd hc h1⟩,
             ⟨fun hc => absurd hc (by decide), fun hc => absurd hc.1 h2⟩,
             ⟨fun _ => ⟨hd, ht⟩, fun _ => rfl⟩⟩

/-- C8 (amended): for every non-empty transcript with no disinterest match on
which extraction returns normally, the outcome is `"scheduled"` iff both a
callback date and a callback time were found and the confidence meets the
0.7 threshold (7 tenths); `"partially_scheduled"` iff at least one of them
was found but the scheduled condition fails (in particular both found with
confidence below the threshold); and `"unknown"` iff neither was found. -/
theorem outcomeClassificationCharacterization (ts : List TranscriptEntry)
    (refDt : PyDateTime) (r : ExtractedOutcome) (hne : ts ≠ [])
    (hni : check_not_interested_patterns ts = false)
    (h : extract_outcome_from_transcripts ts refDt = .ok r) :
    (r.outcome = "scheduled" ↔
      (r.callback_date.isSome ∧ r.callback_time.isSome ∧ 7 ≤ r.confidence)) ∧
    (r.outcome = "partially_scheduled" ↔
      ((r.callback_date.isSome ∨ r.callback_time.isSome) ∧
        ¬(r.callback_date.isSome ∧ r.callback_time.isSome ∧
          7 ≤ r.confidence))) ∧
    (r.outcome = "unknown" ↔
      (r.callback_date = none ∧ r.callback_time = none)) := by
  have hie : ts.isEmpty = false := by
    cases ts
    · exact absurd rfl hne
    · rfl
  unfold extract_outcome_from_transcripts at h
  simp only [hie, hni, Bool.false_eq_true, if_false] at h
  simp only [pure_bind] at h
  rw [except_bind_ok] at h
  obtain ⟨b1, hA, h⟩ := h
  rw [except_bind_ok] at h
  obtain ⟨b2, hB, h⟩ := h
  have hr : finishOutcome b2 = r := by
    simpa [pure, Except.pure] using h
  subst hr
  simpa [finishOutcome] using classifyOutcome_spec b2

/-- Witness for C8's amended theorem at the scheduled transcript. -/
theorem outcomeClassificationCharacterizationWitness :
    scheduledResult.outcome = "scheduled" := by
  have h := outcomeClassificationCharacterization scheduledTranscript refDt2026
    scheduledResult (by decide) (by decide) (by decide)
  exact h.1.mpr ⟨by decide, by decide, by decide⟩

/-- Counterexample for C8 as stated: on `bothFromUserTranscript`, BOTH a
callback date and a callback time are found with confidence 0 < 0.7; the
claim's case split ("partially_scheduled if only one was found, unknown
otherwise") then demands `"unknown"`, but the code classifies
`"partially_scheduled"`. -/
theorem outcomeClassificationCounterexample :
    extract_outcome_from_transcripts bothFromUserTranscript refDt2026 =
      .ok { callback_date := some "2026-01-30", callback_time := some "30:00",
            outcome := "partially_scheduled",
            notes := some "Date: 2026-01-30, Time: 30:00", confidence := 0 } ∧
    ("partially_scheduled" : String) ≠ "unknown" ∧
    ("partially_scheduled" : String) ≠ "scheduled" := by
  refine ⟨?_, ?_, ?_⟩ <;> decide

/-- One-step unfolding of the wait loop. -/
theorem waitLoop_succ (cF eF : Nat → Bool) (fuel w ec : Nat) :
    waitLoop cF eF (fuel + 1) w ec =
      if cF w = true then .sawClosed
      else if eF w = true then
        (if 3 ≤ ec + 1 then .drained w
         else waitLoop cF eF fuel (w + 1) (ec + 1))
      else waitLoop cF eF fuel (w + 1) 0 := rfl

/-- Full case analysis of the wait loop, by induction on the fuel.
Invariant: `ec` counts consecutive empty observations immediately before poll
`w`.  A `timeUp` exit happens exactly when the fuel (the remaining ceiling)
runs out, with `closed` observed false at every poll; a `drained` exit
happens strictly inside the ceiling, at a poll `v ≥ 2` whose last three
observations `v-2, v-1, v` were all empty, with `closed` observed false at
every poll up to and including `v`; a `sawClosed` exit pinpoints a poll where
`closed` was observed true. -/
theorem waitLoop_spec (cF eF : Nat → Bool) :
    ∀ fuel w ec,
      (∀ k, k < ec → eF (w - 1 - k) = true) → ec ≤ w →
      ((∀ v, waitLoop cF eF fuel w ec = .timeUp v →
          v = w + fuel ∧ ∀ i, w ≤ i → i < v → cF i = false) ∧
       (∀ v, waitLoop cF eF fuel w ec = .drained v →
          w ≤ v ∧ v < w + fuel ∧ 2 ≤ v ∧ eF v = true ∧ eF (v - 1) = true ∧
          eF (v - 2) = true ∧ ∀ i, w ≤ i → i ≤ v → cF i = false) ∧
       (waitLoop cF eF fuel w ec = .sawClosed →
          ∃ i, w ≤ i ∧ i < w + fuel ∧ cF i = true)) := by
  intro fuel
  induction fuel with
  | zero =>
    intro w ec hinv hecw
    refine ⟨?_, ?_, ?_⟩
    · intro v h
      cases h
      exact ⟨by omega, fun i h1 h2 => by omega⟩
    · intro v h
      cases h
    · intro h
      cases h
  | succ fuel ih =>
    intro w ec hinv hecw
    by_cases hc : cF w = true
    · have hres : waitLoop cF eF (fuel + 1) w ec = .sawClosed := by
        rw [waitLoop_succ, if_pos hc]
      refine ⟨?_, ?_, ?_⟩
      · intro v h
        rw [hres] at h
        cases h
      · intro v h
        rw [hres] at h
        cases h
      · intro _
        exact ⟨w, le_refl w, by omega, hc⟩
    · by_cases he : eF w = true
      · by_cases h3 : 3 ≤ ec + 1
        · have hres : waitLoop cF eF (fuel + 1) w ec = .drained w := by
            rw [waitLoop_succ, if_neg hc, if_pos he, if_pos h3]
          refine ⟨?_, ?_, ?_⟩
          · intro v h
            rw [hres] at h
            cases h
          · intro v h
            rw [hres] at h
            cases h
            have he1 : eF (w - 1) = true := by
              have := hinv 0 (by omega)
              simpa using this
            have he2 : eF (w - 2) = true := by
              have := hinv 1 (by omega)
              rwa [Nat.sub_sub] at this
            refine ⟨le_refl w, by omega, by omega, he, he1, he2, ?_⟩
            intro i h1 h2
            have : i = w := by omega
            subst this
            exact Bool.not_eq_true (cF i) |>.mp hc
          · intro h
            rw [hres] at h
            cases h
        · have hres : waitLoop cF eF (fuel + 1) w ec =
              waitLoop cF eF fuel (w + 1) (ec + 1) := by
            rw [waitLoop_succ, if_neg hc, if_pos he, if_neg h3]
          have hinv2 : ∀ k, k < ec + 1 → eF (w + 1 - 1 - k) = true := by
            intro k hk
            cases k with
            | zero => simpa using he
            | succ j =>
              have := hinv j (by omega)
              have harith : w + 1 - 1 - (j + 1) = w - 1 - j := by omega
              rwa [harith]
          obtain ⟨ihT, ihD, ihC⟩ := ih (w + 1) (ec + 1) hinv2 (by omega)
          refine ⟨?_, ?_, ?_⟩
          · intro v h
            rw [hres] at h
            obtain ⟨hv, hcf⟩ := ihT v h
            refine ⟨by omega, ?_⟩
            intro i h1 h2
            rcases Nat.eq_or_lt_of_le h1 with h1 | h1
            · rw [← h1]
              exact Bool.not_eq_true (cF w) |>.mp hc
            · exact hcf i (by omega) h2
          · intro v h
            rw [hres] at h
            obtain ⟨hv1, hv2, hv3, hv4, hv5, hv6, hcf⟩ := ihD v h
            refine ⟨by omega, by omega, hv3, hv4, hv5, hv6, ?_⟩
            intro i h1 h2
            rcases Nat.eq_or_lt_of_le h1 with h1 | h1
            · rw [← h1]
              exact Bool.not_eq_true (cF w) |>.mp hc
            · exact hcf i (by omega) h2
          · intro h
            rw [hres] at h
            obtain ⟨i, hi1, hi2, hi3⟩ := ihC h
            exact ⟨i, by omega, by omega, hi3⟩
      · have hres : waitLoop cF eF (fuel + 1) w ec =
            waitLoop cF eF fuel (w + 1) 0 := by
          rw [waitLoop_succ, if_neg hc, if_neg he]
        have hinv2 : ∀ k, k < 0 → eF (w + 1 - 1 - k) = true := by
          intro k hk
          omega
        obtain ⟨ihT, ihD, ihC⟩ := ih (w + 1) 0 hinv2 (by omega)
        refine ⟨?_, ?_, ?_⟩
        · intro v h
          rw [hres] at h
          obtain ⟨hv, hcf⟩ := ihT v h
          refine ⟨by omega, ?_⟩
          intro i h1 h2
          rcases Nat.eq_or_lt_of_le h1 with h1 | h1
          · rw [← h1]
            exact Bool.not_eq_true (cF w) |>.mp hc
          · exact hcf i (by omega) h2
        · intro v h
          rw [hres] at h
          obtain ⟨hv1, hv2, hv3, hv4, hv5, hv6, hcf⟩ := ihD v h
          refine ⟨by omega, by omega, hv3, hv4, hv5, hv6, ?_⟩
          intro i h1 h2
          rcases Nat.eq_or_lt_of_le h1 with h1 | h1
          · rw [← h1]
            exact Bool.not_eq_true (cF w) |>.mp hc
          · exact hcf i (by omega) h2
        · intro h
          rw [hres] at h
          obtain ⟨i, hi1, hi2, hi3⟩ := ihC h
          exact ⟨i, by omega, by omega, hi3⟩

/-- C4: once `end_after_turn` is observed true, the monitor (i) closes only
with `closed` observed false throughout (it never double-closes a session
closed by another path), (ii) never closes before the 1.0 s grace (2 ticks)
has elapsed, (iii) always closes by the ceiling of grace + 15 s (32 ticks)
regardless of the buffer observations, (iv) closes strictly inside the
ceiling only after three consecutive polls observed the outbound buffer
empty, and (v) whenever no other path closes the session, it does close. -/
theorem endCallMonitorSpec (cF eF : Nat → Bool) (cA : Bool) :
    (∀ t, endCallMonitor cF eF cA = .closeCall t →
      cA = false ∧ 2 ≤ t ∧ t ≤ 32 ∧
      (t < 32 → 4 ≤ t ∧ eF (t - 2) = true ∧ eF (t - 3) = true ∧
        eF (t - 4) = true) ∧
      (∀ i, i + 2 ≤ t → i < 30 → cF i = false)) ∧
    (cA = false → (∀ i, i < 30 → cF i = false) →
      ∃ t, endCallMonitor cF eF cA = .closeCall t) := by
  have hinv0 : ∀ k, k < 0 → eF (0 - 1 - k) = true := by
    intro k hk
    omega
  obtain ⟨hT, hD, hC⟩ := waitLoop_spec cF eF 30 0 0 hinv0 (le_refl 0)
  constructor
  · intro t h
    unfold endCallMonitor at h
    rcases hw : waitLoop cF eF 30 0 0 with _ | v | v <;> rw [hw] at h <;>
      dsimp only at h
    · cases h
    · by_cases hca : cA = true
      · rw [if_pos hca] at h
        cases h
      · rw [if_neg hca] at h
        cases h
        obtain ⟨hv1, hv2, hv3, hv4, hv5, hv6, hcf⟩ := hD v hw
        have e2 : 2 + v - 2 = v := by omega
        have e3 : 2 + v - 3 = v - 1 := by omega
        have e4 : 2 + v - 4 = v - 2 := by omega
        refine ⟨by simpa using hca, by omega, by omega, ?_, ?_⟩
        · intro _
          rw [e2, e3, e4]
          exact ⟨by omega, hv4, hv5, hv6⟩
        · intro i h1 h2
          exact hcf i (by omega) (by omega)
    · by_cases hca : cA = true
      · rw [if_pos hca] at h
        cases h
      · rw [if_neg hca] at h
        cases h
        obtain ⟨hv1, hcf⟩ := hT v hw
        refine ⟨by simpa using hca, by omega, by omega, ?_, ?_⟩
        · intro hlt
          omega
        · intro i h1 h2
          exact hcf i (by omega) (by omega)
  · intro hca hnc
    have hcaFalse : ¬cA = true := by simp [hca]
    rcases hw : waitLoop cF eF 30 0 0 with _ | v | v
    · obtain ⟨i, hi1, hi2, hi3⟩ := hC hw
      exact absurd hi3 (by simp [hnc i (by omega)])
    · refine ⟨2 + v, ?_⟩
      unfold endCallMonitor
      rw [hw]
      dsimp only
      rw [if_neg hcaFalse]
    · refine ⟨2 + v, ?_⟩
      unfold endCallMonitor
      rw [hw]
      dsimp only
      rw [if_neg hcaFalse]

/-- Witness for C4: with the buffer always observed empty and the session
never closed elsewhere, the monitor closes at tick 4 = grace (2) + the third
consecutive empty poll; the three observed polls are 0, 1, 2. -/
theorem endCallMonitorSpecWitness :
    2 ≤ 4 ∧ (4 : Nat) ≤ 32 ∧ alwaysEmptyBuf 2 = true ∧
    alwaysEmptyBuf 1 = true ∧ alwaysEmptyBuf 0 = true ∧
    neverClosed 0 = false := by
  have h := (endCallMonitorSpec neverClosed alwaysEmptyBuf false).1 4 (by decide)
  obtain ⟨h1, h2, h3, h4, h5⟩ := h
  obtain ⟨h6, h7, h8, h9⟩ := h4 (by omega)
  exact ⟨h2, h3, h7, h8, h9, h5 0 (by omega) (by omega)⟩
